import Mathlib

/-!
Verification development for the photo watermarking tool
(`photo_watermark.py`).  The Python source is shallowly embedded below:

* `strptimeMatch` / `strptimeExif` model `datetime.strptime(value,
  "%Y:%m:%d %H:%M:%S")` as CPython implements it: each format directive is
  compiled to a regular-expression alternation (`%Y` → four digits, `%m` →
  `1[0-2]|0[1-9]|[1-9]`, `%d` → `3[01]|[12]\d|0[1-9]|[1-9]`, `%H` →
  `2[0-3]|[0-1]\d|\d`, `%M`/`%S` → `[0-5]\d|\d` resp. `6[0-1]|[0-5]\d|\d`,
  a space → one or more whitespace characters), the whole string must be
  consumed, and the resulting fields must form a valid `datetime`
  (`1 ≤ year ≤ 9999`, valid day-of-month, `second ≤ 59`).  Because every
  numeric field is followed by a non-digit literal (or the end of input),
  greedy two-digit matching is equivalent to the regex backtracking search,
  which is how the fields are read here.
* `get_shooting_date` models `PhotoWatermark.get_shooting_date`, over an
  `ExifData` value that is either an unreadable container (the broad
  `except`), a missing EXIF block (`_getexif() is None`), or the tag
  mapping with tag ids already resolved to tag names.
* `computePos`, `watermarkText`, `add_watermark` model the placement and
  rendering decisions of `PhotoWatermark.add_watermark` (Python `//` is
  floor division, hence `Int.fdiv`).
* `image_files`, `process_directory` model `PhotoWatermark.process_directory`;
  `pathSuffix`, `process_single_file` model the single-file branch of `main`.
* `parse_color` models the `parse_color` function, including CPython's
  `int(s)` / `int(s, 16)` grammar (optional surrounding whitespace, optional
  sign, underscores between digits, optional `0x` for base 16).

Characters are compared through `Char.toNat` so that all side conditions are
plain arithmetic.
-/

/-- ASCII decimal digit value, as accepted by `%d`-style directives and
`int(s)`. -/
def digit? (c : Char) : Option Nat :=
  if 48 ≤ c.toNat ∧ c.toNat ≤ 57 then some (c.toNat - 48) else none

/-- `%Y`: exactly four digits. -/
def readYear : List Char → Option (Nat × List Char)
  | a :: b :: c :: d :: rest =>
    match digit? a, digit? b, digit? c, digit? d with
    | some x, some y, some z, some w => some (((x * 10 + y) * 10 + z) * 10 + w, rest)
    | _, _, _, _ => none
  | _ => none

/-- A literal `:` in the format string. -/
def expectColon : List Char → Option (List Char)
  | c :: rest => if c.toNat = 58 then some rest else none
  | [] => none

/-- Python regex `\s` over ASCII: space, `\t`, `\n`, `\v`, `\f`, `\r`. -/
def isPyWs (c : Char) : Bool := c.toNat = 32 ∨ (9 ≤ c.toNat ∧ c.toNat ≤ 13)

/-- A whitespace character in the format string matches `\s+`. -/
def expectWs : List Char → Option (List Char)
  | c :: rest => if isPyWs c then some (rest.dropWhile isPyWs) else none
  | [] => none

/-- A one-or-two digit numeric directive.  The two-digit alternatives of the
CPython regex for a field cover exactly the values `lo2 ≤ v ≤ hi2`; the
one-digit fallback accepts a digit `a` with `ok1 a`. -/
def readField (lo2 hi2 : Nat) (ok1 : Nat → Bool) : List Char → Option (Nat × List Char)
  | c1 :: rest1 =>
    match digit? c1 with
    | none => none
    | some a =>
      match rest1 with
      | c2 :: rest2 =>
        match digit? c2 with
        | some b =>
          if lo2 ≤ 10 * a + b ∧ 10 * a + b ≤ hi2 then some (10 * a + b, rest2)
          else if ok1 a then some (a, rest1) else none
        | none => if ok1 a then some (a, rest1) else none
      | [] => if ok1 a then some (a, []) else none
  | [] => none

/-- The six fields extracted by `strptime(value, "%Y:%m:%d %H:%M:%S")`. -/
structure TS where
  y : Nat
  mo : Nat
  d : Nat
  h : Nat
  mi : Nat
  s : Nat
deriving DecidableEq, Repr

/-- The regex phase of `datetime.strptime(value, "%Y:%m:%d %H:%M:%S")`:
match every directive and require the whole input to be consumed. -/
def strptimeMatch (cs : List Char) : Option TS := do
  let (y, r1) ← readYear cs
  let r2 ← expectColon r1
  let (mo, r3) ← readField 1 12 (fun a => 1 ≤ a) r2
  let r4 ← expectColon r3
  let (d, r5) ← readField 1 31 (fun a => 1 ≤ a) r4
  let r6 ← expectWs r5
  let (h, r7) ← readField 0 23 (fun _ => true) r6
  let r8 ← expectColon r7
  let (mi, r9) ← readField 0 59 (fun _ => true) r8
  let r10 ← expectColon r9
  let (s, r11) ← readField 0 61 (fun _ => true) r10
  if r11 = [] then pure ⟨y, mo, d, h, mi, s⟩ else none

/-- Gregorian leap year, as `datetime` uses. -/
def leapYear (y : Nat) : Bool := y % 4 = 0 ∧ (y % 100 ≠ 0 ∨ y % 400 = 0)

/-- Length of a month, as `datetime` uses. -/
def daysInMonth (y mo : Nat) : Nat :=
  if mo = 2 then (if leapYear y then 29 else 28)
  else if mo = 4 ∨ mo = 6 ∨ mo = 9 ∨ mo = 11 then 30
  else 31

/-- The `datetime` constructor's range validation (it rejects the leap
seconds `60`/`61` that the `%S` regex admits). -/
def dtValid (t : TS) : Bool :=
  decide (1 ≤ t.y ∧ t.y ≤ 9999 ∧ 1 ≤ t.mo ∧ t.mo ≤ 12 ∧
    1 ≤ t.d ∧ t.d ≤ daysInMonth t.y t.mo ∧ t.h ≤ 23 ∧ t.mi ≤ 59 ∧ t.s ≤ 59)

/-- `datetime.strptime(v, "%Y:%m:%d %H:%M:%S")`, `none` for `ValueError`. -/
def strptimeExif (v : String) : Option TS :=
  match strptimeMatch v.data with
  | some t => if dtValid t then some t else none
  | none => none

/-- The digit character of `n % 10`. -/
def digitChar (n : Nat) : Char := Char.ofNat (48 + n % 10)

/-- Two-digit zero-padded decimal rendering (`%m`, `%d` in `strftime`). -/
def pad2 (n : Nat) : List Char := [digitChar (n / 10), digitChar n]

/-- Four-digit zero-padded decimal rendering (`%Y` in `strftime`). -/
def pad4 (n : Nat) : List Char :=
  [digitChar (n / 1000), digitChar (n / 100), digitChar (n / 10), digitChar n]

/-- `dt.strftime("%Y-%m-%d")`. -/
def strftimeDate (t : TS) : String := ⟨pad4 t.y ++ '-' :: (pad2 t.mo ++ '-' :: pad2 t.d)⟩

/-- The `try: strptime … strftime … except ValueError` unit applied to one
candidate EXIF value in `get_shooting_date`. -/
def parseDate (v : String) : Option String := (strptimeExif v).map strftimeDate

/-- The EXIF information of one image, as `get_shooting_date` observes it:
the container can be unreadable (any exception while opening or reading,
caught by the broad `except`), absent (`img._getexif() is None`), or a tag
mapping whose tag ids have been resolved through `ExifTags.TAGS`. -/
inductive ExifData
  | unreadable
  | absent
  | tags (items : List (String × String))

/-- One scan of the tag mapping for entries named `name`, trying candidates
in order and skipping (`continue`) the ones `strptime` rejects. -/
def tryTag : List (String × String) → String → Option String
  | [], _ => none
  | (t, v) :: rest, name =>
    if t = name then
      match parseDate v with
      | some d => some d
      | none => tryTag rest name
    else tryTag rest name

/-- `PhotoWatermark.get_shooting_date`: primary tag `DateTime` first, then
the fallback tags `DateTimeOriginal` and `DateTimeDigitized` in order. -/
def get_shooting_date : ExifData → Option String
  | .unreadable => none
  | .absent => none
  | .tags items =>
    match tryTag items "DateTime" with
    | some d => some d
    | none =>
      match tryTag items "DateTimeOriginal" with
      | some d => some d
      | none => tryTag items "DateTimeDigitized"

/-- ASCII lowering, modelling `str.lower()` on the ASCII strings involved. -/
def pyLowerChar (c : Char) : Char :=
  if 65 ≤ c.toNat ∧ c.toNat ≤ 90 then Char.ofNat (c.toNat + 32) else c

/-- `s.lower()`. -/
def pyLower (s : String) : String := ⟨s.data.map pyLowerChar⟩

/-- ASCII raising, modelling `str.upper()` on the ASCII strings involved. -/
def pyUpperChar (c : Char) : Char :=
  if 97 ≤ c.toNat ∧ c.toNat ≤ 122 then Char.ofNat (c.toNat - 32) else c

/-- `s.upper()`. -/
def pyUpper (s : String) : String := ⟨s.data.map pyUpperChar⟩

/-- `s.endswith(suf)`. -/
def pyEndsWith (s suf : String) : Bool := decide (suf.data <:+ s.data)

/-- `PhotoWatermark.supported_formats` (insertion order of the set literal). -/
def supported_formats : List String := [".jpg", ".jpeg", ".png", ".bmp", ".tiff", ".tif"]

/-- The saved image is re-encoded without alpha exactly when the output name
lowercases to a `.jpg`/`.jpeg` ending (`add_watermark`, save step). -/
def jpegOut (outputPath : String) : Bool :=
  pyEndsWith (pyLower outputPath) ".jpg" || pyEndsWith (pyLower outputPath) ".jpeg"

/-- The watermark text: the extracted date, or the placeholder `未知日期`
when `get_shooting_date` returned `None`. -/
def watermarkText (exif : ExifData) : String := (get_shooting_date exif).getD "未知日期"

/-- `margin = 20` in `add_watermark`. -/
def margin : Int := 20

/-- The `(x, y)` anchor computation of `add_watermark`.  Python `//` is
floor division, hence `Int.fdiv`; the final `else` branch is the
`bottom-right` default. -/
def computePos (width height tw th : Int) (position : String) : Int × Int :=
  if position = "top-left" then (margin, margin)
  else if position = "top-right" then (width - tw - margin, margin)
  else if position = "center" then (Int.fdiv (width - tw) 2, Int.fdiv (height - th) 2)
  else if position = "bottom-left" then (margin, height - th - margin)
  else (width - tw - margin, height - th - margin)

/-- Channel layouts relevant to `add_watermark`. -/
inductive PILMode
  | RGB
  | RGBA
  | other
deriving DecidableEq, Repr

/-- The observable decisions of one `add_watermark` call: the text drawn,
the anchor, and the mode of the saved image. -/
structure WMRun where
  text : String
  pos : Int × Int
  savedMode : PILMode
deriving DecidableEq, Repr

/-- `PhotoWatermark.add_watermark`: the image is converted to `RGBA`, the
text layer is created in `RGBA`, the layers are alpha-composited (an `RGBA`
result), and the result is converted to `RGB` before saving exactly when the
output name ends in `.jpg`/`.jpeg` (case-insensitively).  `tw`/`th` are the
text bounding-box dimensions delivered by the imaging library. -/
def add_watermark (width height tw th : Int) (exif : ExifData)
    (outputPath position : String) : WMRun :=
  let composited : PILMode := .RGBA
  { text := watermarkText exif
    pos := computePos width height tw th position
    savedMode := if jpegOut outputPath then .RGB else composited }

/-- Whether `input_path.glob(f"*{ext}")` matches the file `name`: the
pattern's `*` matches any (possibly empty) run of characters, so the match
is exactly an `ext` suffix.  `pathlib`'s glob does not hide dot-files, so
names such as `.hidden.jpg` match too. -/
def globMatch (name ext : String) : Bool := pyEndsWith name ext

/-- The twelve glob patterns tried by `process_directory`: for each
supported extension, the lowercase and the uppercase variant. -/
def globVariants : List String := (supported_formats.map (fun e => [e, pyUpper e])).flatten

/-- `image_files` as accumulated by `process_directory`. -/
def image_files (listing : List String) : List String :=
  (globVariants.map (fun v => listing.filter (fun n => globMatch n v))).flatten

/-- A file that some glob pattern of directory mode picks up. -/
def isSupportedDirFile (name : String) : Bool :=
  globVariants.any (fun v => globMatch name v)

/-- Outcome of a `process_directory` call. -/
inductive DirOutcome
  | notFound
  | noImages
  | report (success total : Nat)
deriving DecidableEq, Repr

/-- A `process_directory` run: whether the output directory was created,
and the reported outcome. -/
structure DirRun where
  madeOutputDir : Bool
  outcome : DirOutcome
deriving DecidableEq, Repr

/-- `PhotoWatermark.process_directory`.  `listing` is the directory's file
names; `ok f` says whether `add_watermark` succeeds on file `f` (a failure
is caught, logged and only skips that file).  The output directory is
created right after the existence check, before the glob enumeration. -/
def process_directory (dirExists : Bool) (listing : List String)
    (ok : String → Bool) : DirRun :=
  if dirExists then
    let files := image_files listing
    if files = [] then ⟨true, .noImages⟩
    else ⟨true, .report (files.foldl (fun acc f => if ok f then acc + 1 else acc) 0) files.length⟩
  else ⟨false, .notFound⟩

/-- `pathlib.PurePath.suffix` on a file name: the part from the last dot on,
empty when the dot is absent, leading, or trailing. -/
def pathSuffix (name : String) : String :=
  let cs := name.data
  match cs.reverse.findIdx? (fun c => c.toNat = 46) with
  | none => ""
  | some j =>
    let i := cs.length - 1 - j
    if 0 < i ∧ i < cs.length - 1 then ⟨cs.drop i⟩ else ""

/-- The extension gate of `main`'s single-file branch:
`input_path.suffix.lower() in supported_formats`. -/
def isSupportedSingle (name : String) : Bool :=
  supported_formats.contains (pyLower (pathSuffix name))

/-- Outcome of the single-file branch of `main`. -/
inductive SingleOutcome
  | unsupported
  | attempted (ok : Bool)
deriving DecidableEq, Repr

/-- A single-file run: whether the output directory was created, and the
outcome. -/
structure SingleRun where
  madeOutputDir : Bool
  outcome : SingleOutcome
deriving DecidableEq, Repr

/-- The single-file branch of `main`: an unsupported extension is rejected
before the output directory is created; otherwise the directory is created
and the watermarking attempted (its failure is caught and reported). -/
def process_single_file (name : String) (ok : Bool) : SingleRun :=
  if isSupportedSingle name then ⟨true, .attempted ok⟩ else ⟨false, .unsupported⟩

/-- Strip whitespace from both ends, as `int(s)` does before parsing. -/
def stripWsL (cs : List Char) : List Char :=
  ((cs.dropWhile isPyWs).reverse.dropWhile isPyWs).reverse

/-- Digit run with single underscores allowed between digits, continuing an
accumulator (the CPython `int` literal grammar). -/
def digitsRun (dv : Char → Option Nat) (base : Nat) : List Char → Nat → Option Nat
  | [], acc => some acc
  | c :: rest, acc =>
    if c.toNat = 95 then
      match rest with
      | c2 :: rest2 =>
        match dv c2 with
        | some v => digitsRun dv base rest2 (acc * base + v)
        | none => none
      | [] => none
    else
      match dv c with
      | some v => digitsRun dv base rest (acc * base + v)
      | none => none

/-- A non-empty digit run (must start with a digit). -/
def digitsTop (dv : Char → Option Nat) (base : Nat) : List Char → Option Nat
  | c :: rest =>
    match dv c with
    | some v => digitsRun dv base rest v
    | none => none
  | [] => none

/-- The digits of an `int` literal, with the optional `0x`/`0X` marker (and
an optional underscore right after it) when `allow0x` is set. -/
def pyIntDigits (dv : Char → Option Nat) (base : Nat) (allow0x : Bool)
    (cs : List Char) : Option Nat :=
  if allow0x then
    match cs with
    | c0 :: cx :: rest =>
      if c0.toNat = 48 ∧ (cx.toNat = 120 ∨ cx.toNat = 88) then
        match rest with
        | u :: r2 => if u.toNat = 95 then digitsTop dv base r2 else digitsTop dv base rest
        | [] => none
      else digitsTop dv base cs
    | _ => digitsTop dv base cs
  else digitsTop dv base cs

/-- CPython `int(s, base)` on a character list: optional whitespace, an
optional sign, then digits; `none` models `ValueError`. -/
def pyIntL (dv : Char → Option Nat) (base : Nat) (allow0x : Bool)
    (cs : List Char) : Option Int :=
  match stripWsL cs with
  | c :: rest =>
    if c.toNat = 43 then (pyIntDigits dv base allow0x rest).map Int.ofNat
    else if c.toNat = 45 then (pyIntDigits dv base allow0x rest).map (fun n => -(n : Int))
    else (pyIntDigits dv base allow0x (c :: rest)).map Int.ofNat
  | [] => none

/-- ASCII hexadecimal digit value, as accepted by `int(s, 16)`. -/
def hexDigit? (c : Char) : Option Nat :=
  if 48 ≤ c.toNat ∧ c.toNat ≤ 57 then some (c.toNat - 48)
  else if 97 ≤ c.toNat ∧ c.toNat ≤ 102 then some (c.toNat - 87)
  else if 65 ≤ c.toNat ∧ c.toNat ≤ 70 then some (c.toNat - 55)
  else none

/-- `int(s)`. -/
def pyInt10 (cs : List Char) : Option Int := pyIntL digit? 10 false cs

/-- `int(s, 16)`. -/
def pyInt16 (cs : List Char) : Option Int := pyIntL hexDigit? 16 true cs

/-- `s.split(',')`: split at every comma, keeping empty pieces. -/
def splitComma : List Char → List (List Char)
  | [] => [[]]
  | c :: rest =>
    if c.toNat = 44 then [] :: splitComma rest
    else
      match splitComma rest with
      | p :: ps => (c :: p) :: ps
      | [] => [[c]]

/-- `tuple(map(int, parts))`: the first unparseable part raises. -/
def mapPyInt10 : List (List Char) → Option (List Int)
  | [] => some []
  | p :: ps =>
    match pyInt10 p with
    | some v => (mapPyInt10 ps).map (fun l => v :: l)
    | none => none

/-- The predefined name table of `parse_color`, looked up on the lowered
string with `(255, 255, 255)` as the `.get` default. -/
def colorByName (low : String) : List Int :=
  if low = "white" then [255, 255, 255]
  else if low = "black" then [0, 0, 0]
  else if low = "red" then [255, 0, 0]
  else if low = "green" then [0, 255, 0]
  else if low = "blue" then [0, 0, 255]
  else if low = "yellow" then [255, 255, 0]
  else if low = "cyan" then [0, 255, 255]
  else if low = "magenta" then [255, 0, 255]
  else [255, 255, 255]

/-- `parse_color`: a `#`-prefixed string is `lstrip`ped of `#` and read as
three 2-character hex slices, a string containing a comma is split and
mapped through `int`, anything else goes through the name table; every
exception falls back to white.  Python returns tuples, embedded as lists
because the comma branch's tuple length is whatever `split` produced. -/
def parse_color (color_str : String) : List Int :=
  let cs := color_str.data
  match cs with
  | c :: _ =>
    if c.toNat = 35 then
      let hs := cs.dropWhile (fun x => x.toNat = 35)
      match pyInt16 (hs.take 2), pyInt16 ((hs.drop 2).take 2), pyInt16 ((hs.drop 4).take 2) with
      | some a, some b, some c2 => [a, b, c2]
      | _, _, _ => [255, 255, 255]
    else if cs.contains ',' then
      match mapPyInt10 (splitComma cs) with
      | some l => l
      | none => [255, 255, 255]
    else colorByName (pyLower color_str)
  | [] =>
    if cs.contains ',' then
      match mapPyInt10 (splitComma cs) with
      | some l => l
      | none => [255, 255, 255]
    else colorByName (pyLower color_str)

/-! ### Parser lemmas -/

/-- The timestamp string `"YYYY:MM:DD HH:MM:SS"` rendered with zero-padded
fields, i.e. the fixed textual pattern the spec describes. -/
def tsChars (y mo d h mi s : Nat) : List Char :=
  pad4 y ++ ':' :: (pad2 mo ++ ':' :: (pad2 d ++ ' ' :: (pad2 h ++ ':' :: (pad2 mi ++ ':' :: pad2 s))))

/-- String form of `tsChars`. -/
def tsString (y mo d h mi s : Nat) : String := ⟨tsChars y mo d h mi s⟩

/-- Replacing the `:` separators by `-`, the reformatting the claim
describes on the date portion. -/
def dashChar (c : Char) : Char := if c.toNat = 58 then '-' else c

theorem digitChar_mod (n : Nat) : digitChar n = digitChar (n % 10) := by
  simp [digitChar, Nat.mod_mod_of_dvd]

theorem digit?_digitChar_lt : ∀ k, k < 10 → digit? (digitChar k) = some k := by decide

theorem digit?_digitChar (n : Nat) : digit? (digitChar n) = some (n % 10) := by
  rw [digitChar_mod]
  exact digit?_digitChar_lt _ (Nat.mod_lt _ (by omega))

theorem isPyWs_digitChar_lt : ∀ k, k < 10 → isPyWs (digitChar k) = false := by decide

theorem isPyWs_digitChar (n : Nat) : isPyWs (digitChar n) = false := by
  rw [digitChar_mod]
  exact isPyWs_digitChar_lt _ (Nat.mod_lt _ (by omega))

theorem dashChar_digitChar_lt : ∀ k, k < 10 → dashChar (digitChar k) = digitChar k := by decide

theorem dashChar_digitChar (n : Nat) : dashChar (digitChar n) = digitChar n := by
  rw [digitChar_mod]
  exact dashChar_digitChar_lt _ (Nat.mod_lt _ (by omega))

theorem readYear_pad4 (y : Nat) (rest : List Char) (hy : y < 10000) :
    readYear (pad4 y ++ rest) = some (y, rest) := by
  simp only [pad4, List.cons_append, List.nil_append, readYear,
    digit?_digitChar]
  have : (((y / 1000 % 10) * 10 + y / 100 % 10) * 10 + y / 10 % 10) * 10 + y % 10 = y := by
    omega
  simp [this]

theorem readField_pad2 (lo2 hi2 : Nat) (ok1 : Nat → Bool) (n : Nat) (rest : List Char)
    (hn : n < 100) (h1 : lo2 ≤ n) (h2 : n ≤ hi2) :
    readField lo2 hi2 ok1 (pad2 n ++ rest) = some (n, rest) := by
  have hd : n / 10 % 10 = n / 10 := by omega
  have hv : 10 * (n / 10) + n % 10 = n := by omega
  simp only [pad2, List.cons_append, List.nil_append, readField,
    digit?_digitChar, hd, hv]
  simp [h1, h2]

theorem expectColon_cons (rest : List Char) : expectColon (':' :: rest) = some rest := rfl

theorem strptimeMatch_ts (y mo d h mi s : Nat)
    (hy : y < 10000) (hmo1 : 1 ≤ mo) (hmo2 : mo ≤ 12)
    (hd1 : 1 ≤ d) (hd2 : d ≤ 31) (hh : h ≤ 23) (hmi : mi ≤ 59) (hs : s ≤ 61) :
    strptimeMatch (tsChars y mo d h mi s) = some ⟨y, mo, d, h, mi, s⟩ := by
  have hsp : isPyWs ' ' = true := by decide
  have hws : ∀ l : List Char,
      expectWs (' ' :: (pad2 h ++ l)) = some (pad2 h ++ l) := by
    intro l
    simp [expectWs, hsp, pad2, isPyWs_digitChar]
  have hfin : readField 0 61 (fun _ => true) (pad2 s) = some (s, []) := by
    have := readField_pad2 0 61 (fun _ => true) s [] (by omega) (by omega) hs
    simpa using this
  simp only [strptimeMatch, tsChars,
    readYear_pad4 _ _ hy, Option.bind_eq_bind, Option.some_bind,
    expectColon_cons,
    readField_pad2 1 12 _ mo _ (by omega) hmo1 hmo2,
    readField_pad2 1 31 _ d _ (by omega) hd1 hd2,
    hws,
    readField_pad2 0 23 _ h _ (by omega) (by omega) hh,
    readField_pad2 0 59 _ mi _ (by omega) (by omega) hmi,
    hfin]
  simp

theorem daysInMonth_le_31 (y mo : Nat) : daysInMonth y mo ≤ 31 := by
  unfold daysInMonth
  split
  · split <;> omega
  · split <;> omega

theorem parseDate_ts (y mo d h mi s : Nat)
    (hy1 : 1 ≤ y) (hy2 : y ≤ 9999) (hmo1 : 1 ≤ mo) (hmo2 : mo ≤ 12)
    (hd1 : 1 ≤ d) (hd2 : d ≤ daysInMonth y mo) (hh : h ≤ 23) (hmi : mi ≤ 59) (hs : s ≤ 59) :
    parseDate (tsString y mo d h mi s) = some (strftimeDate ⟨y, mo, d, h, mi, s⟩) := by
  have h31 : d ≤ 31 := le_trans hd2 (daysInMonth_le_31 y mo)
  have hm : strptimeMatch (tsString y mo d h mi s).data = some ⟨y, mo, d, h, mi, s⟩ :=
    strptimeMatch_ts y mo d h mi s (by omega) hmo1 hmo2 hd1 h31 hh hmi (by omega)
  have hv : dtValid ⟨y, mo, d, h, mi, s⟩ = true := by
    simp only [dtValid, decide_eq_true_eq]
    exact ⟨hy1, hy2, hmo1, hmo2, hd1, hd2, hh, hmi, hs⟩
  simp [parseDate, strptimeExif, hm, hv]

theorem ts_take_map (y mo d h mi s : Nat) :
    ((tsChars y mo d h mi s).take 10).map dashChar =
      pad4 y ++ '-' :: (pad2 mo ++ '-' :: pad2 d) := by
  have hc : dashChar ':' = '-' := by decide
  simp [tsChars, pad4, pad2, List.take, dashChar_digitChar, hc]

theorem tryTag_cons_skip (t v : String) (rest : List (String × String)) (name : String)
    (h : parseDate v = none) :
    tryTag ((t, v) :: rest) name = tryTag rest name := by
  by_cases ht : t = name <;> simp [tryTag, ht, h]

/-- C1: a `DateTime` candidate whose value is rendered in the fixed
`"YYYY:MM:DD HH:MM:SS"` pattern (zero-padded fields of a valid timestamp)
makes `get_shooting_date` return exactly the date portion of that value,
with the `:` separators replaced by `-` (`YYYY-MM-DD`); and a candidate
value `strptime` rejects is skipped without aborting the search, the
remaining candidates being tried as if the entry were absent. -/
theorem exif_datetime_pattern_roundtrip :
    (∀ y mo d h mi s : Nat, ∀ rest : List (String × String),
      1 ≤ y → y ≤ 9999 → 1 ≤ mo → mo ≤ 12 → 1 ≤ d → d ≤ daysInMonth y mo →
      h ≤ 23 → mi ≤ 59 → s ≤ 59 →
      get_shooting_date (.tags (("DateTime", tsString y mo d h mi s) :: rest)) =
        some ⟨((tsString y mo d h mi s).data.take 10).map dashChar⟩)
    ∧ (∀ t v : String, ∀ rest : List (String × String), parseDate v = none →
      get_shooting_date (.tags ((t, v) :: rest)) = get_shooting_date (.tags rest)) := by
  constructor
  · intro y mo d h mi s rest hy1 hy2 hmo1 hmo2 hd1 hd2 hh hmi hs
    have hp := parseDate_ts y mo d h mi s hy1 hy2 hmo1 hmo2 hd1 hd2 hh hmi hs
    have hout : strftimeDate ⟨y, mo, d, h, mi, s⟩ =
        ⟨((tsString y mo d h mi s).data.take 10).map dashChar⟩ := by
      rw [strftimeDate]
      exact congrArg String.mk (ts_take_map y mo d h mi s).symm
    simp [get_shooting_date, tryTag, hp, hout]
  · intro t v rest h
    simp only [get_shooting_date, tryTag_cons_skip t v rest _ h]

/-- Witness for C1 at `"2023:10:15 14:30:25"` and an unparseable value. -/
theorem exif_datetime_pattern_roundtrip_witness :
    get_shooting_date (.tags [("DateTime", tsString 2023 10 15 14 30 25)]) =
      some ⟨((tsString 2023 10 15 14 30 25).data.take 10).map dashChar⟩
    ∧ get_shooting_date (.tags [("DateTime", "2023/10/15"), ("Make", "X")]) =
      get_shooting_date (.tags [("Make", "X")]) :=
  ⟨exif_datetime_pattern_roundtrip.1 2023 10 15 14 30 25 []
      (by decide) (by decide) (by decide) (by decide) (by decide) (by decide)
      (by decide) (by decide) (by decide),
    exif_datetime_pattern_roundtrip.2 "DateTime" "2023/10/15" [("Make", "X")] (by decide)⟩

/-! ### Tag search lemmas -/

theorem tryTag_eq_none (items : List (String × String)) (name : String)
    (h : ∀ e ∈ items, e.1 = name → parseDate e.2 = none) :
    tryTag items name = none := by
  induction items with
  | nil => rfl
  | cons e rest ih =>
    obtain ⟨t, v⟩ := e
    by_cases ht : t = name
    · have hv : parseDate v = none := h (t, v) (by simp) ht
      simp only [tryTag, ht, if_pos rfl, hv]
      exact ih fun e he => h e (by simp [he])
    · simp only [tryTag, if_neg ht]
      exact ih fun e he => h e (by simp [he])

theorem tryTag_append_found (pre post : List (String × String)) (name v d : String)
    (hpre : ∀ e ∈ pre, e.1 = name → parseDate e.2 = none)
    (hv : parseDate v = some d) :
    tryTag (pre ++ (name, v) :: post) name = some d := by
  induction pre with
  | nil => simp [tryTag, hv]
  | cons e rest ih =>
    obtain ⟨t, w⟩ := e
    by_cases ht : t = name
    · have hw : parseDate w = none := hpre (t, w) (by simp) ht
      simp only [List.cons_append, tryTag, ht, if_pos rfl, hw]
      exact ih fun e he => hpre e (by simp [he])
    · simp only [List.cons_append, tryTag, if_neg ht]
      exact ih fun e he => hpre e (by simp [he])

/-- C5: the candidate search is a fixed, deterministic priority order —
`DateTime` first, then `DateTimeOriginal`, then `DateTimeDigitized`.  A
usable `DateTime` entry wins regardless of the other tags; when every
`DateTime` entry is unusable the first usable `DateTimeOriginal` entry is
used; when those are unusable too the first usable `DateTimeDigitized`
entry is used. -/
theorem timestamp_tag_priority :
    (∀ pre post : List (String × String), ∀ v d : String,
      parseDate v = some d →
      (∀ e ∈ pre, e.1 = "DateTime" → parseDate e.2 = none) →
      get_shooting_date (.tags (pre ++ ("DateTime", v) :: post)) = some d)
    ∧ (∀ pre post : List (String × String), ∀ v d : String,
      parseDate v = some d →
      (∀ e ∈ pre ++ ("DateTimeOriginal", v) :: post, e.1 = "DateTime" → parseDate e.2 = none) →
      (∀ e ∈ pre, e.1 = "DateTimeOriginal" → parseDate e.2 = none) →
      get_shooting_date (.tags (pre ++ ("DateTimeOriginal", v) :: post)) = some d)
    ∧ (∀ pre post : List (String × String), ∀ v d : String,
      parseDate v = some d →
      (∀ e ∈ pre ++ ("DateTimeDigitized", v) :: post, e.1 = "DateTime" → parseDate e.2 = none) →
      (∀ e ∈ pre ++ ("DateTimeDigitized", v) :: post, e.1 = "DateTimeOriginal" → parseDate e.2 = none) →
      (∀ e ∈ pre, e.1 = "DateTimeDigitized" → parseDate e.2 = none) →
      get_shooting_date (.tags (pre ++ ("DateTimeDigitized", v) :: post)) = some d) := by
  refine ⟨?_, ?_, ?_⟩
  · intro pre post v d hv hpre
    simp [get_shooting_date, tryTag_append_found pre post "DateTime" v d hpre hv]
  · intro pre post v d hv hdt hpre
    simp [get_shooting_date, tryTag_eq_none _ "DateTime" hdt,
      tryTag_append_found pre post "DateTimeOriginal" v d hpre hv]
  · intro pre post v d hv hdt hdo hpre
    simp [get_shooting_date, tryTag_eq_none _ "DateTime" hdt,
      tryTag_eq_none _ "DateTimeOriginal" hdo,
      tryTag_append_found pre post "DateTimeDigitized" v d hpre hv]

/-- Witness for C5: an unusable `DateTime` entry, a usable
`DateTimeOriginal` alternate listed after it, and a usable
`DateTimeDigitized` entry further down; the alternate wins. -/
theorem timestamp_tag_priority_witness :
    get_shooting_date (.tags
      [("DateTime", "not a date"),
       ("DateTimeOriginal", "2023:10:15 14:30:25"),
       ("DateTimeDigitized", "2020:01:02 03:04:05")]) = some "2023-10-15" := by
  have h := timestamp_tag_priority.2.1 [("DateTime", "not a date")]
    [("DateTimeDigitized", "2020:01:02 03:04:05")] "2023:10:15 14:30:25" "2023-10-15"
    (by decide) (by decide) (by decide)
  simpa using h

/-- C3: when no usable timestamp exists — the metadata container is
unreadable, the EXIF block is absent, or no candidate value parses — the
outcome is absence, not an error: `add_watermark` still runs and the text
it renders is exactly the placeholder string `未知日期`. -/
theorem missing_metadata_placeholder :
    ∀ (width height tw th : Int) (out pos : String),
    (add_watermark width height tw th .unreadable out pos).text = "未知日期"
    ∧ (add_watermark width height tw th .absent out pos).text = "未知日期"
    ∧ (∀ items : List (String × String),
        (∀ e ∈ items,
          e.1 = "DateTime" ∨ e.1 = "DateTimeOriginal" ∨ e.1 = "DateTimeDigitized" →
          parseDate e.2 = none) →
        (add_watermark width height tw th (.tags items) out pos).text = "未知日期") := by
  intro width height tw th out pos
  refine ⟨rfl, rfl, ?_⟩
  intro items h
  simp [add_watermark, watermarkText, get_shooting_date,
    tryTag_eq_none items "DateTime" (fun e he ht => h e he (Or.inl ht)),
    tryTag_eq_none items "DateTimeOriginal" (fun e he ht => h e he (Or.inr (Or.inl ht))),
    tryTag_eq_none items "DateTimeDigitized" (fun e he ht => h e he (Or.inr (Or.inr ht)))]

/-- Witness for C3: an image with EXIF tags but no parseable timestamp. -/
theorem missing_metadata_placeholder_witness :
    (add_watermark 800 600 100 40 (.tags [("Make", "X"), ("DateTime", "2023-10-15")])
      "out.jpg" "bottom-right").text = "未知日期" :=
  (missing_metadata_placeholder 800 600 100 40 "out.jpg" "bottom-right").2.2
    [("Make", "X"), ("DateTime", "2023-10-15")] (by decide)

/-! ### Placement, saving, and file-selection claims -/

/-- C4: the anchor coordinates use a fixed 20-unit margin from the relevant
edges for the four corner anchors and floored geometric centering for the
center anchor; nothing is clamped, so when the text exceeds the image
dimension minus the margin the bottom-right `x` goes negative. -/
theorem watermark_anchor_coordinates :
    ∀ width height tw th : Int,
    margin = 20
    ∧ computePos width height tw th "top-left" = (margin, margin)
    ∧ computePos width height tw th "top-right" = (width - tw - margin, margin)
    ∧ computePos width height tw th "center" =
        (Int.fdiv (width - tw) 2, Int.fdiv (height - th) 2)
    ∧ computePos width height tw th "bottom-left" = (margin, height - th - margin)
    ∧ computePos width height tw th "bottom-right" = (width - tw - margin, height - th - margin)
    ∧ (width - margin < tw → (computePos width height tw th "bottom-right").1 < 0) := by
  intro width height tw th
  refine ⟨rfl, rfl, rfl, rfl, rfl, rfl, ?_⟩
  intro h
  have hm : margin = (20 : Int) := rfl
  rw [hm] at h
  have e : computePos width height tw th "bottom-right" =
      (width - tw - margin, height - th - margin) := rfl
  rw [e, hm]
  show width - tw - 20 < 0
  omega

/-- Witness for C4 with an image narrower than the text. -/
theorem watermark_anchor_coordinates_witness :
    (computePos 50 600 100 40 "bottom-right").1 < 0 :=
  (watermark_anchor_coordinates 50 600 100 40).2.2.2.2.2.2 (by decide)

/-- C7: a single-file input whose `pathlib` suffix, lowercased, is not in
the supported set is rejected as unsupported with no output directory
created. -/
theorem unsupported_single_file_rejected :
    ∀ (name : String) (ok : Bool),
    supported_formats.contains (pyLower (pathSuffix name)) = false →
    process_single_file name ok = ⟨false, .unsupported⟩ := by
  intro name ok h
  unfold process_single_file isSupportedSingle
  rw [h]
  rfl

/-- Witness for C7: a `.gif` input. -/
theorem unsupported_single_file_rejected_witness :
    process_single_file "photo.gif" true = ⟨false, SingleOutcome.unsupported⟩ :=
  unsupported_single_file_rejected "photo.gif" true (by decide)

/-! ### Directory enumeration lemmas -/

theorem globVariants_suffix_eq :
    ∀ v1 ∈ globVariants, ∀ v2 ∈ globVariants, v1.data <:+ v2.data → v1 = v2 := by decide

theorem globMatch_unique (n v1 v2 : String)
    (h1 : v1 ∈ globVariants) (h2 : v2 ∈ globVariants)
    (m1 : globMatch n v1 = true) (m2 : globMatch n v2 = true) : v1 = v2 := by
  have s1 : v1.data <:+ n.data := of_decide_eq_true m1
  have s2 : v2.data <:+ n.data := of_decide_eq_true m2
  rcases le_total v1.data.length v2.data.length with hle | hle
  · exact globVariants_suffix_eq v1 h1 v2 h2
      (List.suffix_of_suffix_length_le s1 s2 hle)
  · exact (globVariants_suffix_eq v2 h2 v1 h1
      (List.suffix_of_suffix_length_le s2 s1 hle)).symm

theorem countP_or_disjoint (p q : String → Bool) (l : List String)
    (h : ∀ x ∈ l, ¬(p x = true ∧ q x = true)) :
    l.countP (fun x => p x || q x) = l.countP p + l.countP q := by
  induction l with
  | nil => simp
  | cons a l ih =>
    have ha := h a (by simp)
    have ih' := ih fun x hx => h x (by simp [hx])
    by_cases hp : p a = true
    · have hq : q a = false := by
        cases hq' : q a
        · rfl
        · exact absurd ⟨hp, hq'⟩ ha
      simp [List.countP_cons, hp, hq, ih']
      omega
    · have hp' : p a = false := by simpa using hp
      by_cases hq : q a = true
      · simp [List.countP_cons, hp', hq, ih']
        omega
      · have hq' : q a = false := by simpa using hq
        simp [List.countP_cons, hp', hq', ih']

theorem flatten_filter_length (l : List String) :
    ∀ vs : List String, vs.Nodup →
    (∀ (n : String), ∀ v1 ∈ vs, ∀ v2 ∈ vs,
      globMatch n v1 = true → globMatch n v2 = true → v1 = v2) →
    ((vs.map (fun v => l.filter (fun n => globMatch n v))).flatten).length =
      l.countP (fun n => vs.any (fun v => globMatch n v)) := by
  intro vs
  induction vs with
  | nil => simp
  | cons v vs ih =>
    intro hnd huniq
    have hv : v ∈ v :: vs := by simp
    have hdisj : ∀ n ∈ l, ¬(globMatch n v = true ∧ vs.any (fun w => globMatch n w) = true) := by
      intro n _ ⟨hm, hany⟩
      obtain ⟨w, hw, hmw⟩ := List.any_eq_true.mp hany
      have : v = w := huniq n v hv w (by simp [hw]) hm hmw
      rw [List.nodup_cons] at hnd
      exact hnd.1 (this ▸ hw)
    have ih' := ih (List.nodup_cons.mp hnd).2
      (fun n v1 h1 v2 h2 => huniq n v1 (by simp [h1]) v2 (by simp [h2]))
    simp only [List.map_cons, List.flatten_cons, List.length_append, List.any_cons]
    rw [ih', ← List.countP_eq_length_filter,
      countP_or_disjoint (fun n => globMatch n v) (fun n => vs.any fun w => globMatch n w) l hdisj]

theorem image_files_length (listing : List String) :
    (image_files listing).length = listing.countP isSupportedDirFile := by
  have hnd : globVariants.Nodup := by decide
  exact flatten_filter_length listing globVariants hnd
    (fun n v1 h1 v2 h2 => globMatch_unique n v1 v2 h1 h2)

theorem foldl_success_count (ok : String → Bool) :
    ∀ (l : List String) (acc : Nat),
    l.foldl (fun a f => if ok f then a + 1 else a) acc = acc + l.countP ok := by
  intro l
  induction l with
  | nil => simp
  | cons a l ih =>
    intro acc
    by_cases h : ok a = true
    · simp [List.foldl_cons, List.countP_cons, h, ih]
      omega
    · simp [List.foldl_cons, List.countP_cons, h, ih]

/-- C2: on an existing directory, batch mode processes exactly the files an
extension glob picks up — their number `N` is the count of supported names
in the listing — and reports `success/N`, where `success` counts the files
whose per-file processing succeeded (a failure only excludes that file), so
`success ≤ N`. -/
theorem directory_batch_tally :
    ∀ (listing : List String) (ok : String → Bool),
    listing.countP isSupportedDirFile ≠ 0 →
    (process_directory true listing ok).outcome =
      .report ((image_files listing).countP ok) (listing.countP isSupportedDirFile)
    ∧ (image_files listing).countP ok ≤ listing.countP isSupportedDirFile := by
  intro listing ok hN
  have hlen := image_files_length listing
  have hne : image_files listing ≠ [] := by
    intro h
    rw [h] at hlen
    exact hN hlen.symm
  have hrep : process_directory true listing ok =
      ⟨true, .report ((image_files listing).foldl (fun acc f => if ok f then acc + 1 else acc) 0)
        (image_files listing).length⟩ := by
    simp [process_directory, hne]
  constructor
  · rw [hrep]
    show DirOutcome.report _ _ = _
    rw [foldl_success_count ok (image_files listing) 0, Nat.zero_add, hlen]
  · rw [← hlen]
    exact List.countP_le_length _

/-- Witness for C2: two supported files (one failing) and one unsupported
file; the report is `1/2`. -/
theorem directory_batch_tally_witness :
    (process_directory true ["a.jpg", "b.txt", "c.PNG"]
        (fun n => n = "a.jpg")).outcome = DirOutcome.report 1 2
    ∧ (image_files ["a.jpg", "b.txt", "c.PNG"]).countP (fun n => n = "a.jpg") ≤
        (["a.jpg", "b.txt", "c.PNG"] : List String).countP isSupportedDirFile := by
  have h := directory_batch_tally ["a.jpg", "b.txt", "c.PNG"] (fun n => n = "a.jpg") (by decide)
  exact ⟨h.1.trans (by decide), h.2⟩

/-- C9: once the directory exists, the output directory is created
unconditionally — before the glob enumeration — so a run that finds zero
supported files still creates it while reporting `noImages`. -/
theorem output_dir_created_before_enumeration :
    ∀ (listing : List String) (ok : String → Bool),
    (process_directory true listing ok).madeOutputDir = true
    ∧ (listing.countP isSupportedDirFile = 0 →
        (process_directory true listing ok).outcome = .noImages) := by
  intro listing ok
  constructor
  · by_cases hnil : image_files listing = []
    · simp [process_directory, hnil]
    · simp [process_directory, hnil]
  · intro h0
    have hlen : (image_files listing).length = 0 := by
      rw [image_files_length]
      exact h0
    have hnil : image_files listing = [] := List.eq_nil_of_length_eq_zero hlen
    simp [process_directory, hnil]

/-- Witness for C9: a directory containing only an unsupported file. -/
theorem output_dir_created_before_enumeration_witness :
    (process_directory true ["b.txt"] (fun _ => true)).madeOutputDir = true
    ∧ (process_directory true ["b.txt"] (fun _ => true)).outcome = DirOutcome.noImages :=
  ⟨(output_dir_created_before_enumeration ["b.txt"] (fun _ => true)).1,
   (output_dir_created_before_enumeration ["b.txt"] (fun _ => true)).2 (by decide)⟩

/-- C10: extension-case handling differs between the two modes.  The
single-file gate only looks at the lowercased suffix, so it cannot
distinguish case variants; `photo.Jpg` passes it.  Directory mode only
globs the all-lowercase and all-uppercase variants, so `photo.jpg` and
`photo.JPG` are picked up while the mixed-case `photo.Jpg` is silently
skipped. -/
theorem extension_case_asymmetry :
    (∀ s t : String, pyLower (pathSuffix s) = pyLower (pathSuffix t) →
      isSupportedSingle s = isSupportedSingle t)
    ∧ isSupportedSingle "photo.Jpg" = true
    ∧ isSupportedDirFile "photo.Jpg" = false
    ∧ isSupportedDirFile "photo.jpg" = true
    ∧ isSupportedDirFile "photo.JPG" = true := by
  refine ⟨?_, by decide, by decide, by decide, by decide⟩
  intro s t h
  unfold isSupportedSingle
  rw [h]

/-- Witness for C10's universally quantified part: two names whose suffixes
agree up to case are treated alike by the single-file gate. -/
theorem extension_case_asymmetry_witness :
    isSupportedSingle "photo.Jpg" = isSupportedSingle "other.JPG" :=
  extension_case_asymmetry.1 "photo.Jpg" "other.JPG" (by decide)

/-! ### Color parsing -/

/-- C6 counterexample: `parse_color` is claimed to always return a triple
with components in 0–255, but the comma branch returns `int`-parsed values
unvalidated: `"300,0,0"` yields a component exceeding 255. -/
theorem parse_color_out_of_range_cex :
    parse_color "300,0,0" = [300, 0, 0] ∧ ¬((300 : Int) ≤ 255) := by decide

theorem colorByName_range (low : String) :
    ∃ r g b : Int, colorByName low = [r, g, b] ∧
      0 ≤ r ∧ r ≤ 255 ∧ 0 ≤ g ∧ g ≤ 255 ∧ 0 ≤ b ∧ b ≤ 255 := by
  unfold colorByName
  repeat' split
  all_goals exact ⟨_, _, _, rfl, by norm_num⟩

theorem hexDigit?_facts (c : Char) (v : Nat) (h : hexDigit? c = some v) :
    v ≤ 15 ∧ 48 ≤ c.toNat ∧ c.toNat ≤ 102 ∧ c.toNat ≠ 95 ∧ c.toNat ≠ 120 ∧
      c.toNat ≠ 88 ∧ isPyWs c = false ∧ c.toNat ≠ 43 ∧ c.toNat ≠ 45 ∧ c.toNat ≠ 35 := by
  unfold hexDigit? at h
  have hw : ∀ hn : 48 ≤ c.toNat, isPyWs c = false := by
    intro hn
    unfold isPyWs
    rw [decide_eq_false_iff_not]
    omega
  split_ifs at h with h1 h2 h3
  · cases h
    exact ⟨by omega, by omega, by omega, by omega, by omega, by omega, hw (by omega),
      by omega, by omega, by omega⟩
  · cases h
    exact ⟨by omega, by omega, by omega, by omega, by omega, by omega, hw (by omega),
      by omega, by omega, by omega⟩
  · cases h
    exact ⟨by omega, by omega, by omega, by omega, by omega, by omega, hw (by omega),
      by omega, by omega, by omega⟩

theorem pyInt16_pair (c1 c2 : Char) (v1 v2 : Nat)
    (h1 : hexDigit? c1 = some v1) (h2 : hexDigit? c2 = some v2) :
    pyInt16 [c1, c2] = some (Int.ofNat (16 * v1 + v2)) := by
  obtain ⟨_, hb1, hc1, hu1, hx1, hX1, hw1, hp1, hm1, hh1⟩ := hexDigit?_facts c1 v1 h1
  obtain ⟨_, hb2, hc2, hu2, hx2, hX2, hw2, hp2, hm2, hh2⟩ := hexDigit?_facts c2 v2 h2
  have hstrip : stripWsL [c1, c2] = [c1, c2] := by
    simp [stripWsL, List.dropWhile, hw1, hw2]
  unfold pyInt16 pyIntL
  rw [hstrip]
  simp only [hp1, hm1, if_false]
  unfold pyIntDigits digitsTop digitsRun
  simp [hx2, hX2, hu2, h1, h2]
  exact ⟨v1 * 16 + v2, rfl, by push_cast; ring⟩

/-- C6 (amended): `parse_color` understands the three input shapes, but the
0–255 guarantee only holds off the comma branch.  A string that neither
starts with `#` nor contains a comma always yields a triple with components
in 0–255 (a known name's triple, white otherwise); a `#` followed by six
hex digits yields the hex triple, each component in 0–255; an input that
raises during parsing — a `#`-input one of whose 2-character slices `int`
rejects, or a comma input with an unparseable part — silently falls back to
white; a comma input that does parse, however, is returned exactly as `int`
parsed it — without arity or range validation — e.g. `"300,0,0"` gives
`[300, 0, 0]` and `"1,2"` gives `[1, 2]`. -/
theorem parse_color_amended :
    (∀ s : String, (∀ c, s.data.head? = some c → c.toNat ≠ 35) →
      s.data.contains ',' = false →
      ∃ r g b : Int, parse_color s = [r, g, b] ∧
        0 ≤ r ∧ r ≤ 255 ∧ 0 ≤ g ∧ g ≤ 255 ∧ 0 ≤ b ∧ b ≤ 255)
    ∧ (∀ c1 c2 c3 c4 c5 c6 : Char, ∀ v1 v2 v3 v4 v5 v6 : Nat,
      hexDigit? c1 = some v1 → hexDigit? c2 = some v2 → hexDigit? c3 = some v3 →
      hexDigit? c4 = some v4 → hexDigit? c5 = some v5 → hexDigit? c6 = some v6 →
      parse_color ⟨'#' :: [c1, c2, c3, c4, c5, c6]⟩ =
        [Int.ofNat (16 * v1 + v2), Int.ofNat (16 * v3 + v4), Int.ofNat (16 * v5 + v6)]
      ∧ 16 * v1 + v2 ≤ 255 ∧ 16 * v3 + v4 ≤ 255 ∧ 16 * v5 + v6 ≤ 255)
    ∧ (∀ s : String, ∀ c : Char, s.data.head? = some c → c.toNat = 35 →
      (pyInt16 ((s.data.dropWhile (fun x => x.toNat = 35)).take 2) = none ∨
       pyInt16 (((s.data.dropWhile (fun x => x.toNat = 35)).drop 2).take 2) = none ∨
       pyInt16 (((s.data.dropWhile (fun x => x.toNat = 35)).drop 4).take 2) = none) →
      parse_color s = [255, 255, 255])
    ∧ (∀ s : String, (∀ c, s.data.head? = some c → c.toNat ≠ 35) →
      s.data.contains ',' = true →
      mapPyInt10 (splitComma s.data) = none →
      parse_color s = [255, 255, 255])
    ∧ parse_color "300,0,0" = [300, 0, 0]
    ∧ parse_color "1,2" = [1, 2] := by
  refine ⟨?_, ?_, ?_, ?_, by decide, by decide⟩
  · intro s h1 h2
    cases hs : s.data with
    | nil =>
      unfold parse_color
      rw [hs]
      exact colorByName_range _
    | cons c rest =>
      have hc : c.toNat ≠ 35 := h1 c (by rw [hs]; rfl)
      unfold parse_color
      rw [hs]
      rw [hs] at h2
      simp only [hc, if_false, h2, Bool.false_eq_true]
      exact colorByName_range _
  · intro c1 c2 c3 c4 c5 c6 v1 v2 v3 v4 v5 v6 h1 h2 h3 h4 h5 h6
    obtain ⟨hv1, _, _, _, _, _, _, _, _, hh1⟩ := hexDigit?_facts c1 v1 h1
    obtain ⟨hv2, _, _, _, _, _, _, _, _, _⟩ := hexDigit?_facts c2 v2 h2
    obtain ⟨hv3, _, _, _, _, _, _, _, _, _⟩ := hexDigit?_facts c3 v3 h3
    obtain ⟨hv4, _, _, _, _, _, _, _, _, _⟩ := hexDigit?_facts c4 v4 h4
    obtain ⟨hv5, _, _, _, _, _, _, _, _, _⟩ := hexDigit?_facts c5 v5 h5
    obtain ⟨hv6, _, _, _, _, _, _, _, _, _⟩ := hexDigit?_facts c6 v6 h6
    refine ⟨?_, by omega, by omega, by omega⟩
    unfold parse_color
    simp only [String.data]
    have h35 : ('#' : Char).toNat = 35 := by decide
    simp only [h35, if_pos rfl, List.dropWhile_cons, hh1, if_false,
      List.take, List.drop,
      pyInt16_pair c1 c2 v1 v2 h1 h2,
      pyInt16_pair c3 c4 v3 v4 h3 h4,
      pyInt16_pair c5 c6 v5 v6 h5 h6]
    simp
  · intro s c hc h35 hor
    cases hs : s.data with
    | nil =>
      rw [hs] at hc
      simp at hc
    | cons c0 rest =>
      rw [hs] at hc hor
      have hc0 : c0.toNat = 35 := by
        have : c0 = c := by simpa using hc
        rw [this]
        exact h35
      unfold parse_color
      rw [hs]
      simp only [hc0, if_pos rfl]
      rcases hor with h | h | h <;>
        cases hA : pyInt16 (((c0 :: rest).dropWhile (fun x => x.toNat = 35)).take 2) <;>
        cases hB : pyInt16 ((((c0 :: rest).dropWhile (fun x => x.toNat = 35)).drop 2).take 2) <;>
        cases hC : pyInt16 ((((c0 :: rest).dropWhile (fun x => x.toNat = 35)).drop 4).take 2) <;>
        simp_all
  · intro s hnot h2 hmap
    cases hs : s.data with
    | nil =>
      rw [hs] at h2
      simp at h2
    | cons c0 rest =>
      have hc : c0.toNat ≠ 35 := hnot c0 (by rw [hs]; rfl)
      rw [hs] at h2 hmap
      unfold parse_color
      rw [hs]
      simp only [hc, if_false, h2, if_pos rfl, hmap]
      simp

/-- Witness for C6's amended theorem: an unknown name falls back to an
in-range triple, a six-hex-digit string evaluates to its triple, and both
raising shapes — a bad hex slice and a bad comma part — fall back to
white. -/
theorem parse_color_amended_witness :
    (∃ r g b : Int, parse_color "teal" = [r, g, b] ∧
      0 ≤ r ∧ r ≤ 255 ∧ 0 ≤ g ∧ g ≤ 255 ∧ 0 ≤ b ∧ b ≤ 255)
    ∧ (parse_color ⟨'#' :: ['0', 'a', 'f', 'F', '1', '9']⟩ =
        [Int.ofNat (16 * 0 + 10), Int.ofNat (16 * 15 + 15), Int.ofNat (16 * 1 + 9)]
      ∧ 16 * 0 + 10 ≤ 255 ∧ 16 * 15 + 15 ≤ 255 ∧ 16 * 1 + 9 ≤ 255)
    ∧ parse_color "#zz0000" = [255, 255, 255]
    ∧ parse_color "1,x,3" = [255, 255, 255] :=
  ⟨parse_color_amended.1 "teal" (fun c hc => by cases hc; decide) (by decide),
   parse_color_amended.2.1 '0' 'a' 'f' 'F' '1' '9' 0 10 15 15 1 9
     (by decide) (by decide) (by decide) (by decide) (by decide) (by decide),
   parse_color_amended.2.2.1 "#zz0000" '#' (by decide) (by decide)
     (Or.inl (by decide)),
   parse_color_amended.2.2.2.1 "1,x,3" (fun c hc => by cases hc; decide)
     (by decide) (by decide)⟩
